import Mathlib

/-!
Verification development for `stitch_transcript.py`, a script that stitches
multiple AWS Transcribe JSON result files into one speaker-labeled transcript.

Python `float` second values are embedded as rationals (`ℚ`); Python `None`
for a missing timestamp is embedded as `Option.none`.  Exceptions raised by
the script (`StopIteration` escaping the generator, `TypeError` from comparing
`None` with a number, `AssertionError` from the two `assert` sites) are
embedded as an explicit error type, so every operation is total and
executable.  The generator `stitch` yields blocks lazily and a consumer sees
every block yielded before an exception; accordingly the embedded merge
returns the list of blocks emitted so far together with either the file's
`max_offset` (normal completion) or the error that stopped it.
-/

-- The arithmetic on `ℚ` in Batteries is `@[irreducible]`; lift that locally so
-- that concrete runs of the embedded program can be evaluated by `decide`.
attribute [local semireducible] Rat.add Rat.mul Rat.inv Rat.sub Rat.ofScientific

/-- Equality of `Except` values is decidable when it is on both components;
lets concrete runs of the embedded merge be compared by `decide`. -/
instance {ε α : Type} [DecidableEq ε] [DecidableEq α] : DecidableEq (Except ε α) := fun x y =>
  match x, y with
  | .ok a, .ok b => if h : a = b then .isTrue (by rw [h]) else .isFalse (by simp [h])
  | .error a, .error b => if h : a = b then .isTrue (by rw [h]) else .isFalse (by simp [h])
  | .ok _, .error _ => .isFalse (by simp)
  | .error _, .ok _ => .isFalse (by simp)

namespace StitchTranscript

/-- Embeds `SpeakerSection.__init__` (stitch_transcript.py lines 18-24): one
diarization segment with its speaker label, times in seconds, item count and
originating filename. -/
structure SpeakerSection where
  start_time : ℚ
  end_time : ℚ
  speaker : String
  item_count : Nat
  filename : String
deriving DecidableEq

/-- Embeds `ItemSection.__init__` (lines 27-40): one transcribed item (word or
punctuation).  `start_time`/`end_time` are `none` when the JSON item carries no
timestamp; the constructor rejects a non-punctuation item with a missing
timestamp, so such a token never enters a stream.  `alternatives` keeps the
`content` strings of the item's alternatives. -/
structure ItemSection where
  start_time : Option ℚ
  end_time : Option ℚ
  alternatives : List String
  item_type : String
deriving DecidableEq

/-- Embeds the `ItemSection.is_punctuation` property (lines 42-44). -/
def ItemSection.is_punctuation (t : ItemSection) : Bool :=
  t.item_type == "punctuation"

/-- `item_section.alternatives[0]['content']` (line 61).  Python raises
`IndexError` on an empty list; AWS items always carry at least one
alternative, and `headD ""` agrees with the source on every nonempty list. -/
def ItemSection.content0 (t : ItemSection) : String :=
  t.alternatives.headD ""

/-- Wellformedness enforced by `ItemSection.__init__` (lines 38-40): a
non-punctuation item must carry both timestamps. -/
def ItemSection.wf (t : ItemSection) : Prop :=
  t.is_punctuation = false → t.start_time.isSome ∧ t.end_time.isSome

/-- Embeds `StitchedContent.__init__` (lines 47-51): one speaker-attributed
block.  `speaker_label` is (as in the source) the whole attributed
`SpeakerSection`, not just its label string. -/
structure StitchedContent where
  speaker_label : SpeakerSection
  item_sections : List ItemSection
  time_offset : ℚ
deriving DecidableEq

/-- Embeds `StitchedContent.append` (lines 53-54), functionally. -/
def StitchedContent.append (c : StitchedContent) (t : ItemSection) : StitchedContent :=
  { c with item_sections := c.item_sections ++ [t] }

/-- Round to the nearest integer, halves to even: the rounding Python's
`datetime.timedelta` applies when converting fractional seconds to integer
microseconds. -/
def roundHalfEven (q : ℚ) : ℤ :=
  if q - ⌊q⌋ < 1/2 then ⌊q⌋
  else if 1/2 < q - ⌊q⌋ then ⌊q⌋ + 1
  else if ⌊q⌋ % 2 = 0 then ⌊q⌋ else ⌊q⌋ + 1

/-- Python's `"{:02d}".format(n)`: decimal digits of `n`, zero-padded on the
left to width 2. -/
def pad2 (n : ℤ) : String :=
  if 0 ≤ n ∧ n < 10 then "0" ++ toString n else toString n

/-- Embeds `format_duration` (lines 77-83).  `datetime.timedelta(seconds=x)`
normalizes to `(days, seconds, microseconds)` with `0 ≤ seconds < 86400` and
`0 ≤ microseconds < 1000000` (floored division, as in Python).  The format
string is `"{:02d}:{:02d}:{:02d}:{:02d}".format(td.seconds,
(td.seconds % 3600) % 60, td.seconds % 60, td.microseconds % 1000)`. -/
def format_duration (seconds : ℚ) : String :=
  let totalUs := roundHalfEven (seconds * 1000000)
  let dayUs := Int.fmod totalUs 86400000000
  let tdSeconds := Int.fdiv dayUs 1000000
  let tdMicroseconds := Int.fmod dayUs 1000000
  pad2 tdSeconds ++ ":" ++ pad2 (Int.fmod (Int.fmod tdSeconds 3600) 60) ++ ":" ++
    pad2 (Int.fmod tdSeconds 60) ++ ":" ++ pad2 (Int.fmod tdMicroseconds 1000)

/-- The body text built by the loop in `StitchedContent.render` (lines 57-61):
fold over the block's items, inserting a space before an item exactly when the
content accumulated so far is nonempty and the item is not punctuation. -/
def renderContent (items : List ItemSection) : String :=
  items.foldl
    (fun content it =>
      (if 0 < content.length ∧ ¬(it.item_type = "punctuation") then content ++ " "
       else content) ++ it.content0)
    ""

/-- Embeds `StitchedContent.render` (lines 56-74): a header naming the
speaker, the source file and the attributed segment's offset-shifted times,
then a newline, then the body text. -/
def StitchedContent.render (c : StitchedContent) : String :=
  "[ speaker " ++ c.speaker_label.speaker ++ ":" ++ c.speaker_label.filename ++
    " ] : ( " ++ format_duration (c.speaker_label.start_time + c.time_offset) ++
    " - " ++ format_duration (c.speaker_label.end_time + c.time_offset) ++ " )" ++
    "\n" ++ renderContent c.item_sections

/-- The exceptions the script can raise while merging one file. -/
inductive StitchError where
  /-- `next()` on an empty stream before the loop (lines 118-119); surfaces as
  `RuntimeError` at the generator boundary. -/
  | emptyStream
  /-- `TypeError`: comparing `None` with a number (line 124 or the assert on
  line 127 with a missing start time, or `max` with `None` on line 144). -/
  | typeErrorCompare
  /-- `AssertionError` from `assert item_section.start_time >=
  speaker_section.start_time` (line 127). -/
  | orderingAssert
  /-- `AssertionError` from `assert_iterator_empty` (lines 96-102, called on
  lines 145-146): a stream had a leftover element. -/
  | desyncAssert
  /-- Structural-recursion fuel ran out; unreachable for the fuel supplied by
  `stitchFile`, since each iteration consumes one list element. -/
  | outOfFuel
deriving DecidableEq

/-- Embeds the `except StopIteration` handler (lines 138-148): compute
`max_offset = max(speaker_section.end_time, item_section.end_time)` (a
`TypeError` when the held item's end time is `None`), then assert both
iterators empty, then yield the in-progress block.  Returns all blocks
emitted by the file (`out` is the reversed accumulator of earlier yields). -/
def handleStop (speaker_section : SpeakerSection) (item_section : ItemSection)
    (speaker_sections : List SpeakerSection) (items_sections : List ItemSection)
    (cur : StitchedContent) (out : List StitchedContent) :
    List StitchedContent × Except StitchError ℚ :=
  match item_section.end_time with
  | none => (out.reverse, .error .typeErrorCompare)
  | some te =>
    match speaker_sections with
    | _ :: _ => (out.reverse, .error .desyncAssert)
    | [] =>
      match items_sections with
      | _ :: _ => (out.reverse, .error .desyncAssert)
      | [] => ((cur :: out).reverse, .ok (max speaker_section.end_time te))

/-- Embeds the `while True` loop of `stitch` (lines 122-148) for one file.
State: the held (already produced but unconsumed) segment and item, the
remaining segment and item lists, the in-progress block `cur` and the
reversed list `out` of blocks yielded so far.  `fuel` only bounds the
recursion; each iteration consumes one element of one of the lists, so the
fuel supplied by `stitchFile` never runs out. -/
def stitchLoop (time_offset : ℚ) :
    Nat → SpeakerSection → ItemSection → List SpeakerSection → List ItemSection →
    StitchedContent → List StitchedContent →
    List StitchedContent × Except StitchError ℚ
  | 0, _, _, _, _, _, out => (out.reverse, .error .outOfFuel)
  | fuel + 1, speaker_section, item_section, speaker_sections, items_sections, cur, out =>
    if item_section.is_punctuation then
      -- line 124: `or` short-circuits, so no end-time comparison for punctuation
      match items_sections with
      | next_item :: rest =>
        stitchLoop time_offset fuel speaker_section next_item speaker_sections rest
          (cur.append item_section) out
      | [] => handleStop speaker_section item_section speaker_sections []
          (cur.append item_section) out
    else
      match item_section.end_time with
      | none => (out.reverse, .error .typeErrorCompare)
      | some te =>
        if te ≤ speaker_section.end_time then
          -- lines 126-129: same speaker; ordering assert, append, advance the item
          match item_section.start_time with
          | none => (out.reverse, .error .typeErrorCompare)
          | some ts =>
            if ts < speaker_section.start_time then (out.reverse, .error .orderingAssert)
            else
              match items_sections with
              | next_item :: rest =>
                stitchLoop time_offset fuel speaker_section next_item speaker_sections rest
                  (cur.append item_section) out
              | [] => handleStop speaker_section item_section speaker_sections []
                  (cur.append item_section) out
        else
          -- lines 130-137: new segment; advance the segment cursor, keep the item
          match speaker_sections with
          | [] => handleStop speaker_section item_section [] items_sections cur out
          | next_speaker :: rest =>
            if speaker_section.speaker ≠ next_speaker.speaker then
              stitchLoop time_offset fuel next_speaker item_section rest items_sections
                ⟨next_speaker, [], time_offset⟩ (cur :: out)
            else
              stitchLoop time_offset fuel next_speaker item_section rest items_sections
                cur out

/-- One iteration of the `for f in files` body of `stitch` (lines 115-148),
after the JSON is already parsed into the two streams: prime both cursors
(lines 118-119; `StopIteration` escapes the generator when a stream is empty)
and run the merge loop. -/
def stitchFile (speaker_sections : List SpeakerSection)
    (items_sections : List ItemSection) (time_offset : ℚ) :
    List StitchedContent × Except StitchError ℚ :=
  match speaker_sections, items_sections with
  | s :: srest, t :: trest =>
    stitchLoop time_offset (srest.length + trest.length + 1) s t srest trest
      ⟨s, [], time_offset⟩ []
  | _, _ => ([], .error .emptyStream)

/-- A parsed input file: its segment stream and its item stream. -/
abbrev FileData := List SpeakerSection × List ItemSection

/-- Embeds the outer loop of `stitch` (lines 105-148): fold the per-file
merges, threading `time_offset = time_offset + max_offset` (line 113) with
both starting at `0` (lines 106-107).  Yields the concatenation of the blocks
each file emits; an error stops the run, keeping the blocks already
yielded. -/
def stitchRun : ℚ → ℚ → List FileData →
    List StitchedContent × Except StitchError Unit
  | _, _, [] => ([], .ok ())
  | time_offset, max_offset, f :: rest =>
    let off := time_offset + max_offset
    let r := stitchFile f.1 f.2 off
    match r.2 with
    | .error e => (r.1, .error e)
    | .ok mo =>
      let rr := stitchRun off mo rest
      (r.1 ++ rr.1, rr.2)

/-- `stitch(files)` as invoked by `__main__`: the run with both offsets 0. -/
def stitch (files : List FileData) : List StitchedContent × Except StitchError Unit :=
  stitchRun 0 0 files

/-- Embeds the `__main__` write loop (lines 160-162): for each yielded block,
write `render() + "\n"`.  Blocks yielded before an exception are written. -/
def mainOutput (files : List FileData) : String :=
  String.join ((stitch files).1.map (fun b => b.render ++ "\n"))

/-- The `time_offset` value in effect for each file of a run, in order: the
observable `time_offset = time_offset + max_offset` chain of lines 106-113.
The list stops after a file whose merge raises. -/
def driverOffsets : ℚ → ℚ → List FileData → List ℚ
  | _, _, [] => []
  | time_offset, max_offset, f :: rest =>
    let off := time_offset + max_offset
    off :: (match (stitchFile f.1 f.2 off).2 with
      | .ok mo => driverOffsets off mo rest
      | .error _ => [])

/-- A file's `max_offset` (line 144), evaluated at offset 0; the merge's
`max_offset` result does not depend on the offset. -/
def fileMaxOff (f : FileData) : ℚ :=
  match (stitchFile f.1 f.2 0).2 with
  | .ok q => q
  | .error _ => 0

/-- The relation between adjacent emitted blocks asserted by the
speaker-change-fidelity property: attributed speaker labels differ. -/
def labelsNe (a b : StitchedContent) : Prop :=
  a.speaker_label.speaker ≠ b.speaker_label.speaker

/-- Spec-side check used against the output-separation claim: `true` iff no
character of the stream is a newline immediately followed by another newline,
i.e. the stream contains no blank line. -/
def noBlankLine : List Char → Bool
  | a :: b :: rest => !(a == '\n' && b == '\n') && noBlankLine (b :: rest)
  | _ => true

/-! ## Supporting lemmas -/

theorem handleStop_snd (s : SpeakerSection) (t : ItemSection)
    (segs : List SpeakerSection) (toks : List ItemSection)
    (cur cur' : StitchedContent) (out out' : List StitchedContent) :
    (handleStop s t segs toks cur out).2 = (handleStop s t segs toks cur' out').2 := by
  unfold handleStop
  cases t.end_time <;> cases segs <;> cases toks <;> rfl

/-- The second component of the merge result (the file's `max_offset`, or the
error) depends only on the streams, not on the running offset or on the blocks
accumulated so far. -/
theorem stitchLoop_snd (fuel : Nat) :
    ∀ (off off' : ℚ) (s : SpeakerSection) (t : ItemSection)
      (segs : List SpeakerSection) (toks : List ItemSection)
      (cur cur' : StitchedContent) (out out' : List StitchedContent),
    (stitchLoop off fuel s t segs toks cur out).2 =
      (stitchLoop off' fuel s t segs toks cur' out').2 := by
  induction fuel with
  | zero => intros; rfl
  | succ n ih =>
    intro off off' s t segs toks cur cur' out out'
    simp only [stitchLoop]
    by_cases hp : t.is_punctuation = true
    · simp only [if_pos hp]
      cases toks with
      | nil => exact handleStop_snd s t segs [] _ _ out out'
      | cons a rest => exact ih off off' s a segs rest _ _ out out'
    · simp only [if_neg hp]
      cases he : t.end_time with
      | none => rfl
      | some te =>
        by_cases hle : te ≤ s.end_time
        · simp only [if_pos hle]
          cases hs : t.start_time with
          | none => rfl
          | some ts =>
            by_cases hlt : ts < s.start_time
            · simp only [if_pos hlt]
            · simp only [if_neg hlt]
              cases toks with
              | nil => exact handleStop_snd s t segs [] _ _ out out'
              | cons a rest => exact ih off off' s a segs rest _ _ out out'
        · simp only [if_neg hle]
          cases segs with
          | nil => exact handleStop_snd s t [] toks _ _ out out'
          | cons s' rest =>
            by_cases hne : s.speaker ≠ s'.speaker
            · simp only [if_pos hne]
              exact ih off off' s' t rest toks _ _ _ _
            · simp only [if_neg hne]
              exact ih off off' s' t rest toks _ _ out out'

theorem handleStop_ok (s : SpeakerSection) (t : ItemSection)
    (segs : List SpeakerSection) (toks : List ItemSection)
    (cur : StitchedContent) (out : List StitchedContent) (q : ℚ) :
    (handleStop s t segs toks cur out).2 = .ok q →
    segs = [] ∧ toks = [] ∧ ∃ te, t.end_time = some te ∧ q = max s.end_time te := by
  unfold handleStop
  cases he : t.end_time <;> cases segs <;> cases toks <;> intro h <;> simp_all

/-- When the merge of one file completes normally, its `max_offset` is the
maximum of the final segment's end time and the final token's end time (both
streams were fully consumed down to their last elements). -/
theorem stitchLoop_ok_last (fuel : Nat) :
    ∀ (off : ℚ) (s : SpeakerSection) (t : ItemSection)
      (segs : List SpeakerSection) (toks : List ItemSection)
      (cur : StitchedContent) (out : List StitchedContent) (q : ℚ),
    (stitchLoop off fuel s t segs toks cur out).2 = .ok q →
    ∃ te, ((t :: toks).getLast (List.cons_ne_nil _ _)).end_time = some te ∧
      q = max (((s :: segs).getLast (List.cons_ne_nil _ _)).end_time) te := by
  induction fuel with
  | zero => intro off s t segs toks cur out q h; simp [stitchLoop] at h
  | succ n ih =>
    intro off s t segs toks cur out q h
    simp only [stitchLoop] at h
    by_cases hp : t.is_punctuation = true
    · rw [if_pos hp] at h
      cases toks with
      | nil =>
        obtain ⟨hsegs, -, te, hte, hq⟩ := handleStop_ok _ _ _ _ _ _ _ h
        subst hsegs
        exact ⟨te, hte, hq⟩
      | cons a rest =>
        obtain ⟨te, hte, hq⟩ := ih off s a segs rest _ out q h
        exact ⟨te, by rwa [List.getLast_cons (List.cons_ne_nil _ _)], hq⟩
    · rw [if_neg hp] at h
      cases he : t.end_time with
      | none => simp only [he] at h; simp at h
      | some te' =>
        simp only [he] at h
        by_cases hle : te' ≤ s.end_time
        · rw [if_pos hle] at h
          cases hs : t.start_time with
          | none => simp only [hs] at h; simp at h
          | some ts =>
            simp only [hs] at h
            by_cases hlt : ts < s.start_time
            · rw [if_pos hlt] at h; simp at h
            · rw [if_neg hlt] at h
              cases toks with
              | nil =>
                obtain ⟨hsegs, -, te, hte, hq⟩ := handleStop_ok _ _ _ _ _ _ _ h
                subst hsegs
                exact ⟨te, hte, hq⟩
              | cons a rest =>
                obtain ⟨te, hte, hq⟩ := ih off s a segs rest _ out q h
                exact ⟨te, by rwa [List.getLast_cons (List.cons_ne_nil _ _)], hq⟩
        · rw [if_neg hle] at h
          cases segs with
          | nil =>
            obtain ⟨-, htoks, te, hte, hq⟩ := handleStop_ok _ _ _ _ _ _ _ h
            subst htoks
            exact ⟨te, hte, hq⟩
          | cons s' rest =>
            by_cases hne : s.speaker ≠ s'.speaker
            · simp only [if_pos hne] at h
              obtain ⟨te, hte, hq⟩ := ih off s' t rest toks _ _ q h
              exact ⟨te, hte, by rwa [List.getLast_cons (List.cons_ne_nil _ _)]⟩
            · simp only [if_neg hne] at h
              obtain ⟨te, hte, hq⟩ := ih off s' t rest toks cur out q h
              exact ⟨te, hte, by rwa [List.getLast_cons (List.cons_ne_nil _ _)]⟩

theorem chain'_labelsNe_reverse {l : List StitchedContent} (h : List.Chain' labelsNe l) :
    List.Chain' labelsNe l.reverse := by
  rw [List.chain'_reverse]
  exact h.imp fun a b hab e => hab e.symm

theorem handleStop_chain (s : SpeakerSection) (t : ItemSection)
    (segs : List SpeakerSection) (toks : List ItemSection)
    (cur : StitchedContent) (out : List StitchedContent)
    (hchain : List.Chain' labelsNe (cur :: out)) :
    List.Chain' labelsNe (handleStop s t segs toks cur out).1 := by
  unfold handleStop
  cases t.end_time <;> cases segs <;> cases toks <;>
    first
      | exact chain'_labelsNe_reverse hchain
      | exact chain'_labelsNe_reverse hchain.tail

/-- Invariant of the merge loop: if the in-progress block carries the current
segment's label and the blocks yielded so far (with the in-progress block on
top) have pairwise distinct adjacent labels, then so do the blocks the loop
emits. -/
theorem stitchLoop_chain (fuel : Nat) :
    ∀ (off : ℚ) (s : SpeakerSection) (t : ItemSection)
      (segs : List SpeakerSection) (toks : List ItemSection)
      (cur : StitchedContent) (out : List StitchedContent),
    cur.speaker_label.speaker = s.speaker →
    List.Chain' labelsNe (cur :: out) →
    List.Chain' labelsNe (stitchLoop off fuel s t segs toks cur out).1 := by
  induction fuel with
  | zero =>
    intro off s t segs toks cur out _ hchain
    exact chain'_labelsNe_reverse hchain.tail
  | succ n ih =>
    intro off s t segs toks cur out hcur hchain
    have hchain' : List.Chain' labelsNe (cur.append t :: out) := by
      cases out with
      | nil => simp
      | cons b rest =>
        rw [List.chain'_cons] at hchain ⊢
        exact ⟨hchain.1, hchain.2⟩
    simp only [stitchLoop]
    by_cases hp : t.is_punctuation = true
    · simp only [if_pos hp]
      cases toks with
      | nil => exact handleStop_chain _ _ _ _ _ _ hchain'
      | cons a rest => exact ih off s a segs rest _ out hcur hchain'
    · simp only [if_neg hp]
      cases he : t.end_time with
      | none => exact chain'_labelsNe_reverse hchain.tail
      | some te =>
        by_cases hle : te ≤ s.end_time
        · simp only [if_pos hle]
          cases hs : t.start_time with
          | none => exact chain'_labelsNe_reverse hchain.tail
          | some ts =>
            by_cases hlt : ts < s.start_time
            · simp only [if_pos hlt]
              exact chain'_labelsNe_reverse hchain.tail
            · simp only [if_neg hlt]
              cases toks with
              | nil => exact handleStop_chain _ _ _ _ _ _ hchain'
              | cons a rest => exact ih off s a segs rest _ out hcur hchain'
        · simp only [if_neg hle]
          cases segs with
          | nil => exact handleStop_chain _ _ _ _ _ _ hchain
          | cons s' rest =>
            by_cases hne : s.speaker ≠ s'.speaker
            · simp only [if_pos hne]
              apply ih off s' t rest toks ⟨s', [], off⟩ (cur :: out) rfl
              rw [List.chain'_cons]
              refine ⟨?_, hchain⟩
              simp only [labelsNe]
              rw [hcur]
              exact Ne.symm hne
            · simp only [if_neg hne]
              exact ih off s' t rest toks cur out (hcur.trans (not_not.mp hne)) hchain

theorem string_foldl_append (l : List String) : ∀ (a : String),
    l.foldl (fun r s => r ++ s) a = a ++ l.foldl (fun r s => r ++ s) "" := by
  induction l with
  | nil => intro a; simp
  | cons x xs ih =>
    intro a
    simp only [List.foldl_cons]
    rw [ih (a ++ x), ih ("" ++ x), String.empty_append, String.append_assoc]

theorem string_join_cons (s : String) (l : List String) :
    String.join (s :: l) = s ++ String.join l := by
  simp only [String.join, List.foldl_cons]
  rw [string_foldl_append l ("" ++ s), String.empty_append]

theorem intercalate_go (sep : String) (l : List String) : ∀ (acc : String),
    String.intercalate.go acc sep l = acc ++ String.join (l.map (sep ++ ·)) := by
  induction l with
  | nil => intro acc; simp [String.intercalate.go, String.join]
  | cons x xs ih =>
    intro acc
    rw [String.intercalate.go, ih]
    simp only [List.map_cons, string_join_cons, String.append_assoc]

theorem join_sep_aux (sep : String) (xs : List String) :
    sep ++ String.join (xs.map (· ++ sep)) = String.join (xs.map (sep ++ ·)) ++ sep := by
  induction xs with
  | nil => simp [String.join]
  | cons y ys ih =>
    simp only [List.map_cons, string_join_cons, String.append_assoc]
    rw [ih]

/-- Writing each list element followed by one separator is the same as
separating adjacent elements by that separator and closing with one final
separator. -/
theorem join_map_append_sep (sep : String) (l : List String) :
    String.join (l.map (· ++ sep)) =
      String.intercalate sep l ++ (if l.isEmpty then "" else sep) := by
  cases l with
  | nil => simp [String.join, String.intercalate]
  | cons x xs =>
    simp only [List.isEmpty_cons, if_neg Bool.false_ne_true]
    rw [String.intercalate, intercalate_go, List.map_cons, string_join_cons,
      String.append_assoc, join_sep_aux, ← String.append_assoc]

theorem stitchFile_snd (segs : List SpeakerSection) (toks : List ItemSection)
    (off off' : ℚ) :
    (stitchFile segs toks off).2 = (stitchFile segs toks off').2 := by
  unfold stitchFile
  cases segs <;> cases toks <;> first | rfl | apply stitchLoop_snd

/-- The offset the driver passes into each file's merge, position by position:
the first file runs at `off + m` and each later file adds the previous file's
`max_offset`, so file `i` runs at `off + m` plus the sum of the first `i`
files' `max_offset` values. -/
theorem driverOffsets_get (files : List FileData) : ∀ (off m : ℚ),
    (∀ f ∈ files, ∃ q, (stitchFile f.1 f.2 0).2 = .ok q) →
    (driverOffsets off m files).length = files.length ∧
    ∀ i, i < files.length →
      (driverOffsets off m files).getD i 0 =
        off + m + ((files.take i).map fileMaxOff).sum := by
  induction files with
  | nil =>
    intro off m _
    exact ⟨rfl, fun i hi => absurd hi (by simp)⟩
  | cons f rest ih =>
    intro off m hok
    obtain ⟨q, hq⟩ := hok f (List.mem_cons_self f rest)
    have h2 : (stitchFile f.1 f.2 (off + m)).2 = .ok q :=
      (stitchFile_snd f.1 f.2 (off + m) 0).trans hq
    have hqm : fileMaxOff f = q := by unfold fileMaxOff; rw [hq]
    have hrest := ih (off + m) q (fun g hg => hok g (List.mem_cons_of_mem f hg))
    simp only [driverOffsets, h2]
    refine ⟨by simp [hrest.1], ?_⟩
    intro i hi
    cases i with
    | zero => simp
    | succ j =>
      rw [List.getD_cons_succ, hrest.2 j (by simpa using hi), List.take_succ_cons,
        List.map_cons, List.sum_cons, hqm]
      ring

theorem stitchFile_ok_last (segs : List SpeakerSection) (toks : List ItemSection)
    (off : ℚ) (q : ℚ) (h : (stitchFile segs toks off).2 = .ok q) :
    ∃ (hs : segs ≠ []) (ht : toks ≠ []) (te : ℚ),
      (toks.getLast ht).end_time = some te ∧
      q = max ((segs.getLast hs).end_time) te := by
  cases segs with
  | nil => simp [stitchFile] at h
  | cons s srest =>
    cases toks with
    | nil => simp [stitchFile] at h
    | cons t trest =>
      obtain ⟨te, hte, hq⟩ :=
        stitchLoop_ok_last (srest.length + trest.length + 1) off s t srest trest
          ⟨s, [], off⟩ [] q h
      exact ⟨List.cons_ne_nil _ _, List.cons_ne_nil _ _, te, hte, hq⟩

theorem fileMaxOff_nonneg (f : FileData)
    (hok : ∃ q, (stitchFile f.1 f.2 0).2 = .ok q)
    (hends : ∀ sg ∈ f.1, (0:ℚ) ≤ sg.end_time) :
    0 ≤ fileMaxOff f := by
  obtain ⟨q, hq⟩ := hok
  have hqm : fileMaxOff f = q := by unfold fileMaxOff; rw [hq]
  obtain ⟨hs, ht, te, hte, hmax⟩ := stitchFile_ok_last f.1 f.2 0 q hq
  rw [hqm, hmax]
  exact le_trans (hends _ (List.getLast_mem hs)) (le_max_left _ _)

theorem driverOffsets_chain (files : List FileData)
    (hok : ∀ f ∈ files, ∃ q, (stitchFile f.1 f.2 0).2 = .ok q)
    (hends : ∀ f ∈ files, ∀ sg ∈ f.1, (0:ℚ) ≤ sg.end_time) :
    List.Chain' (· ≤ ·) (driverOffsets 0 0 files) := by
  obtain ⟨hlen, hget⟩ := driverOffsets_get files 0 0 hok
  rw [List.chain'_iff_get]
  intro i hi
  have hi1 : i < files.length := by omega
  have hi2 : i + 1 < files.length := by omega
  have g1 : (driverOffsets 0 0 files).get ⟨i, by omega⟩ =
      (driverOffsets 0 0 files).getD i 0 := by
    rw [List.getD_eq_getElem?_getD, List.getElem?_eq_getElem (by omega), List.get_eq_getElem]
    rfl
  have g2 : (driverOffsets 0 0 files).get ⟨i + 1, by omega⟩ =
      (driverOffsets 0 0 files).getD (i + 1) 0 := by
    rw [List.getD_eq_getElem?_getD, List.getElem?_eq_getElem (by omega), List.get_eq_getElem]
    rfl
  rw [g1, g2, hget i hi1, hget (i + 1) hi2]
  have hstep : ((files.take (i + 1)).map fileMaxOff).sum =
      ((files.take i).map fileMaxOff).sum + fileMaxOff files[i] := by
    rw [List.map_take, List.map_take, List.sum_take_succ (files.map fileMaxOff) i
      (by simpa using hi1), List.getElem_map]
  rw [hstep]
  have hnn : 0 ≤ fileMaxOff files[i] :=
    fileMaxOff_nonneg _ (hok _ (List.getElem_mem hi1)) (hends _ (List.getElem_mem hi1))
  linarith

/-! ## Claims -/

/-- C1: token coverage fails on the code.  On the file with one segment
(speaker `spk_0`, 0-1) and two word tokens `hi` (0-1) and `there` (1-2), the
merge completes normally — segment advance hits exhaustion while `there` is
still held unconsumed by the token cursor, both leftover iterators are empty,
so the final-block yield goes through — and `there` appears in no emitted
block, although the raw token stream produced it. -/
theorem claim_C1_token_dropped :
    stitchFile [⟨0, 1, "spk_0", 2, "f1"⟩]
      [⟨some 0, some 1, ["hi"], "pronunciation"⟩,
       ⟨some 1, some 2, ["there"], "pronunciation"⟩] 0 =
      ([⟨⟨0, 1, "spk_0", 2, "f1"⟩, [⟨some 0, some 1, ["hi"], "pronunciation"⟩], 0⟩],
        .ok 2) ∧
    (stitchFile [⟨0, 1, "spk_0", 2, "f1"⟩]
      [⟨some 0, some 1, ["hi"], "pronunciation"⟩,
       ⟨some 1, some 2, ["there"], "pronunciation"⟩] 0).1.all
      (fun b => !(b.item_sections.contains
        ⟨some 1, some 2, ["there"], "pronunciation"⟩)) = true := by
  decide

/-- C2: speaker-change fidelity.  (1) For every input file and offset, the
blocks the merge emits (also when it stops with an error) have pairwise
distinct adjacent attributed speaker labels.  (2) When the segment cursor
advances to a segment with the same speaker label, no block is yielded and
the loop continues with the same in-progress block and the same emitted
list, so tokens keep accumulating into the same block. -/
theorem claim_C2_speaker_change_fidelity :
    (∀ (segs : List SpeakerSection) (toks : List ItemSection) (off : ℚ),
      List.Chain' labelsNe (stitchFile segs toks off).1) ∧
    (∀ (fuel : Nat) (off : ℚ) (s s' : SpeakerSection) (t : ItemSection)
       (segs : List SpeakerSection) (toks : List ItemSection)
       (cur : StitchedContent) (out : List StitchedContent) (te : ℚ),
      t.is_punctuation = false → t.end_time = some te → ¬ te ≤ s.end_time →
      s.speaker = s'.speaker →
      stitchLoop off (fuel + 1) s t (s' :: segs) toks cur out =
        stitchLoop off fuel s' t segs toks cur out) := by
  constructor
  · intro segs toks off
    cases segs with
    | nil => simp [stitchFile]
    | cons s srest =>
      cases toks with
      | nil => simp [stitchFile]
      | cons t trest =>
        exact stitchLoop_chain (srest.length + trest.length + 1) off s t srest trest
          ⟨s, [], off⟩ [] rfl (List.chain'_singleton _)
  · intro fuel off s s' t segs toks cur out te hp he hle hss
    simp only [stitchLoop]
    rw [if_neg (by simp [hp]), he]
    simp only [if_neg hle, if_neg (not_not_intro hss)]

/-- Witness for C2 at concrete inputs: a two-speaker file yields a chain of
distinct-labeled blocks, and a same-label segment advance is a plain cursor
move that yields nothing. -/
theorem claim_C2_witness :
    List.Chain' labelsNe
      (stitchFile [⟨0, 2, "spk_0", 1, "f"⟩, ⟨2, 4, "spk_1", 1, "f"⟩]
        [⟨some 0, some 1, ["a"], "pronunciation"⟩,
         ⟨some 2, some 3, ["b"], "pronunciation"⟩] 0).1 ∧
    stitchLoop 0 2 ⟨0, 1, "spk_0", 1, "f"⟩ ⟨some 1, some 2, ["w"], "pronunciation"⟩
        [⟨1, 2, "spk_0", 1, "f"⟩] [] ⟨⟨0, 1, "spk_0", 1, "f"⟩, [], 0⟩ [] =
      stitchLoop 0 1 ⟨1, 2, "spk_0", 1, "f"⟩ ⟨some 1, some 2, ["w"], "pronunciation"⟩
        [] [] ⟨⟨0, 1, "spk_0", 1, "f"⟩, [], 0⟩ [] :=
  ⟨claim_C2_speaker_change_fidelity.1 _ _ 0,
   claim_C2_speaker_change_fidelity.2 1 0 ⟨0, 1, "spk_0", 1, "f"⟩ ⟨1, 2, "spk_0", 1, "f"⟩
     ⟨some 1, some 2, ["w"], "pronunciation"⟩ [] [] ⟨⟨0, 1, "spk_0", 1, "f"⟩, [], 0⟩ [] 2
     rfl rfl (by decide) rfl⟩

/-- C3 counterexample: at the state with segment (1-2) and word token `x`
(0-1), the claim's branch condition holds — the token is not punctuation and
its end time 1 is at most the segment end time 2 — yet the token is not
appended and the token cursor does not advance: the merge raises the
ordering-consistency assertion (the token starts before the segment) and
emits nothing. -/
theorem claim_C3_counterexample :
    ((⟨some 0, some 1, ["x"], "pronunciation"⟩ : ItemSection).is_punctuation = true ∨
      ∃ te, (⟨some 0, some 1, ["x"], "pronunciation"⟩ : ItemSection).end_time = some te ∧
        te ≤ (⟨1, 2, "spk_0", 1, "f"⟩ : SpeakerSection).end_time) ∧
    stitchFile [⟨1, 2, "spk_0", 1, "f"⟩] [⟨some 0, some 1, ["x"], "pronunciation"⟩] 0 =
      ([], .error .orderingAssert) :=
  ⟨Or.inr ⟨1, rfl, by decide⟩, by decide⟩

/-- C3 amended: the token-assignment rule holds provided the
ordering-consistency check does not fire.  (1) A punctuation token is
appended and the token cursor advances; the segment cursor is untouched.
(2) A non-punctuation token whose end time is at most the current segment's
end time — equality included, so equality never causes a segment advance —
is appended and the token cursor advances, provided its start time is present
and not before the segment's start time.  (3) Otherwise only the segment
cursor advances and no token is consumed on that step. -/
theorem claim_C3_token_assignment :
    ∀ (fuel : Nat) (off : ℚ) (s : SpeakerSection) (t : ItemSection)
      (segs : List SpeakerSection) (toks : List ItemSection)
      (cur : StitchedContent) (out : List StitchedContent),
    (t.is_punctuation = true →
      stitchLoop off (fuel + 1) s t segs toks cur out =
        match toks with
        | next_item :: rest =>
          stitchLoop off fuel s next_item segs rest (cur.append t) out
        | [] => handleStop s t segs [] (cur.append t) out) ∧
    (∀ te ts, t.is_punctuation = false → t.end_time = some te → te ≤ s.end_time →
      t.start_time = some ts → s.start_time ≤ ts →
      stitchLoop off (fuel + 1) s t segs toks cur out =
        match toks with
        | next_item :: rest =>
          stitchLoop off fuel s next_item segs rest (cur.append t) out
        | [] => handleStop s t segs [] (cur.append t) out) ∧
    (∀ te, t.is_punctuation = false → t.end_time = some te → ¬ te ≤ s.end_time →
      stitchLoop off (fuel + 1) s t segs toks cur out =
        match segs with
        | [] => handleStop s t [] toks cur out
        | next_speaker :: rest =>
          if s.speaker ≠ next_speaker.speaker then
            stitchLoop off fuel next_speaker t rest toks
              ⟨next_speaker, [], off⟩ (cur :: out)
          else stitchLoop off fuel next_speaker t rest toks cur out) := by
  intro fuel off s t segs toks cur out
  refine ⟨?_, ?_, ?_⟩
  · intro hp
    simp only [stitchLoop, if_pos hp]
  · intro te ts hp he hle hs hge
    simp only [stitchLoop]
    rw [if_neg (by simp [hp]), he]
    simp only [if_pos hle, hs, if_neg (not_lt.mpr hge)]
  · intro te hp he hgt
    simp only [stitchLoop]
    rw [if_neg (by simp [hp]), he]
    simp only [if_neg hgt]

/-- Witness for C3 at a concrete state — with the tie te = segment end time,
the token is consumed (appended, cursor advanced into the stop handler), not
treated as a segment advance. -/
theorem claim_C3_witness :
    stitchLoop 0 1 ⟨0, 2, "spk_0", 1, "f"⟩ ⟨some 1, some 2, ["w"], "pronunciation"⟩
        [] [] ⟨⟨0, 2, "spk_0", 1, "f"⟩, [], 0⟩ [] =
      handleStop ⟨0, 2, "spk_0", 1, "f"⟩ ⟨some 1, some 2, ["w"], "pronunciation"⟩ [] []
        ((⟨⟨0, 2, "spk_0", 1, "f"⟩, [], 0⟩ : StitchedContent).append
          ⟨some 1, some 2, ["w"], "pronunciation"⟩) [] :=
  (claim_C3_token_assignment 0 0 ⟨0, 2, "spk_0", 1, "f"⟩
      ⟨some 1, some 2, ["w"], "pronunciation"⟩ [] [] ⟨⟨0, 2, "spk_0", 1, "f"⟩, [], 0⟩ []).2.1
    2 1 rfl rfl (by decide) rfl (by decide)

/-- C4 counterexample: the streams do not exhaust simultaneously — the
segment stream exhausts while the word token `b` (1-3) is still held,
unconsumed, by the token cursor — yet the merge raises no error and yields
the final block: it completes normally with `.ok 3`, and the unconsumed token
appears in no block. -/
theorem claim_C4_counterexample :
    stitchFile [⟨0, 2, "spk_0", 1, "f"⟩]
      [⟨some 0, some 1, ["a"], "pronunciation"⟩,
       ⟨some 1, some 3, ["b"], "pronunciation"⟩] 0 =
      ([⟨⟨0, 2, "spk_0", 1, "f"⟩, [⟨some 0, some 1, ["a"], "pronunciation"⟩], 0⟩],
        .ok 3) ∧
    (stitchFile [⟨0, 2, "spk_0", 1, "f"⟩]
      [⟨some 0, some 1, ["a"], "pronunciation"⟩,
       ⟨some 1, some 3, ["b"], "pronunciation"⟩] 0).1.all
      (fun b => !(b.item_sections.contains
        ⟨some 1, some 3, ["b"], "pronunciation"⟩)) = true := by
  decide

/-- C4 amended: the desynchronization check inspects the leftover iterators.
(1) If, at exhaustion, either iterator still holds an element (and the held
token's end time is present, so the `max` computed first does not raise), the
stop handler raises the desynchronization assertion instead of yielding the
final block.  (2) In particular, when the token stream exhausts on a consume
step while at least one unconsumed segment remains, the merge raises the
desynchronization assertion and yields no further block.  (3) Likewise when
the segment stream exhausts while the token iterator still holds an element
beyond the held token. -/
theorem claim_C4_desync_fatal :
    (∀ (s : SpeakerSection) (t : ItemSection) (segs : List SpeakerSection)
       (toks : List ItemSection) (cur : StitchedContent) (out : List StitchedContent)
       (te : ℚ), t.end_time = some te → segs ≠ [] ∨ toks ≠ [] →
      handleStop s t segs toks cur out = (out.reverse, .error .desyncAssert)) ∧
    (∀ (fuel : Nat) (off : ℚ) (s : SpeakerSection) (t : ItemSection)
       (segs : List SpeakerSection) (cur : StitchedContent) (out : List StitchedContent)
       (te ts : ℚ), segs ≠ [] → t.end_time = some te →
      (t.is_punctuation = true ∨
        (t.is_punctuation = false ∧ te ≤ s.end_time ∧ t.start_time = some ts ∧
          s.start_time ≤ ts)) →
      stitchLoop off (fuel + 1) s t segs [] cur out =
        (out.reverse, .error .desyncAssert)) ∧
    (∀ (fuel : Nat) (off : ℚ) (s : SpeakerSection) (t : ItemSection)
       (toks : List ItemSection) (cur : StitchedContent) (out : List StitchedContent)
       (te : ℚ), toks ≠ [] → t.end_time = some te → t.is_punctuation = false →
      ¬ te ≤ s.end_time →
      stitchLoop off (fuel + 1) s t [] toks cur out =
        (out.reverse, .error .desyncAssert)) := by
  have hstop : ∀ (s : SpeakerSection) (t : ItemSection) (segs : List SpeakerSection)
      (toks : List ItemSection) (cur : StitchedContent) (out : List StitchedContent)
      (te : ℚ), t.end_time = some te → segs ≠ [] ∨ toks ≠ [] →
      handleStop s t segs toks cur out = (out.reverse, .error .desyncAssert) := by
    intro s t segs toks cur out te he hne
    unfold handleStop
    rw [he]
    cases segs with
    | cons a l => rfl
    | nil =>
      cases toks with
      | cons a l => rfl
      | nil => rcases hne with h | h <;> exact absurd rfl h
  refine ⟨hstop, ?_, ?_⟩
  · intro fuel off s t segs cur out te ts hsegs he hcase
    rcases hcase with hp | ⟨hp, hle, hs, hge⟩
    · simp only [stitchLoop, if_pos hp]
      exact hstop s t segs [] _ out te he (Or.inl hsegs)
    · simp only [stitchLoop]
      rw [if_neg (by simp [hp]), he]
      simp only [if_pos hle, hs, if_neg (not_lt.mpr hge)]
      exact hstop s t segs [] _ out te he (Or.inl hsegs)
  · intro fuel off s t toks cur out te htoks he hp hgt
    simp only [stitchLoop]
    rw [if_neg (by simp [hp]), he]
    simp only [if_neg hgt]
    exact hstop s t [] toks cur out te he (Or.inr htoks)

/-- Witness for C4 at a concrete state: the token stream exhausts right as
word `a` (0-1) is consumed while segment (2-4, `spk_1`) remains unconsumed,
and the merge stops with the desynchronization assertion. -/
theorem claim_C4_witness :
    stitchLoop 0 1 ⟨0, 2, "spk_0", 1, "f"⟩ ⟨some 0, some 1, ["a"], "pronunciation"⟩
        [⟨2, 4, "spk_1", 1, "f"⟩] [] ⟨⟨0, 2, "spk_0", 1, "f"⟩, [], 0⟩ [] =
      ([], .error .desyncAssert) :=
  claim_C4_desync_fatal.2.1 0 0 ⟨0, 2, "spk_0", 1, "f"⟩
    ⟨some 0, some 1, ["a"], "pronunciation"⟩ [⟨2, 4, "spk_1", 1, "f"⟩]
    ⟨⟨0, 2, "spk_0", 1, "f"⟩, [], 0⟩ [] 1 0 (by decide) rfl
    (Or.inr ⟨rfl, by decide, rfl, by decide⟩)

/-- C5: offset accumulation.  For a run in which every file's merge completes
normally: the driver evaluates one offset per file; the offset used for file
N+1 is the sum of the `max_offset` values of files 1..N (file 1 runs at
offset 0, the empty sum); given the data-model invariant that segment end
times are non-negative, the offsets are non-decreasing across files; and each
file's `max_offset` — available only on normal completion, i.e. after that
file's streams are exhausted — is the maximum of the file's final segment end
time and final token end time. -/
theorem claim_C5_offset_accumulation (files : List FileData)
    (hok : ∀ f ∈ files, ∃ q, (stitchFile f.1 f.2 0).2 = .ok q) :
    ((driverOffsets 0 0 files).length = files.length ∧
      ∀ i, i < files.length →
        (driverOffsets 0 0 files).getD i 0 = ((files.take i).map fileMaxOff).sum) ∧
    ((∀ f ∈ files, ∀ sg ∈ f.1, (0:ℚ) ≤ sg.end_time) →
      List.Chain' (· ≤ ·) (driverOffsets 0 0 files)) ∧
    (∀ f ∈ files, ∀ q, (stitchFile f.1 f.2 0).2 = .ok q →
      ∃ (hs : f.1 ≠ []) (ht : f.2 ≠ []) (te : ℚ),
        ((f.2).getLast ht).end_time = some te ∧
        q = max (((f.1).getLast hs).end_time) te) := by
  refine ⟨⟨(driverOffsets_get files 0 0 hok).1, ?_⟩,
    driverOffsets_chain files hok, ?_⟩
  · intro i hi
    rw [(driverOffsets_get files 0 0 hok).2 i hi]
    ring
  · intro f _ q hq
    exact stitchFile_ok_last f.1 f.2 0 q hq

/-- Witness for C5 on a concrete two-file run (per-file `max_offset` 2 and
3): the second file runs at offset 2, the sum over the first file, and the
offsets are non-decreasing. -/
theorem claim_C5_witness :
    (driverOffsets 0 0
        [([⟨0, 2, "spk_0", 1, "a"⟩], [⟨some 0, some 2, ["x"], "pronunciation"⟩]),
         ([⟨0, 3, "spk_0", 1, "b"⟩], [⟨some 0, some 3, ["y"], "pronunciation"⟩])]).getD 1 0 =
      (([([⟨0, 2, "spk_0", 1, "a"⟩], [⟨some 0, some 2, ["x"], "pronunciation"⟩]),
         ([⟨0, 3, "spk_0", 1, "b"⟩],
          [⟨some 0, some 3, ["y"], "pronunciation"⟩])].take 1).map fileMaxOff).sum ∧
    List.Chain' (· ≤ ·)
      (driverOffsets 0 0
        [([⟨0, 2, "spk_0", 1, "a"⟩], [⟨some 0, some 2, ["x"], "pronunciation"⟩]),
         ([⟨0, 3, "spk_0", 1, "b"⟩], [⟨some 0, some 3, ["y"], "pronunciation"⟩])]) := by
  have hok : ∀ f ∈
      [(([⟨0, 2, "spk_0", 1, "a"⟩], [⟨some 0, some 2, ["x"], "pronunciation"⟩]) : FileData),
       ([⟨0, 3, "spk_0", 1, "b"⟩], [⟨some 0, some 3, ["y"], "pronunciation"⟩])],
      ∃ q, (stitchFile f.1 f.2 0).2 = .ok q := by
    intro f hf
    fin_cases hf
    · exact ⟨2, by decide⟩
    · exact ⟨3, by decide⟩
  exact ⟨(claim_C5_offset_accumulation _ hok).1.2 1 (by decide),
    (claim_C5_offset_accumulation _ hok).2.1 (by intro f hf sg hsg; fin_cases hf <;>
      simp_all)⟩

/-- C6: header time formatting is broken.  On input 3661.5 seconds,
`format_duration` produces `"3661:01:01:00"`, not the HH:MM:SS:mmm rendering
`"01:01:01:500"`: the first field is `td.seconds` (total seconds within the
day, not hours), the second is `(td.seconds % 3600) % 60` (seconds within the
minute, not minutes), and the last is `td.microseconds % 1000` zero-padded to
two digits (not the milliseconds). -/
theorem claim_C6_header_format_bug :
    format_duration (3661 + 1/2) = "3661:01:01:00" ∧
    format_duration (3661 + 1/2) ≠ "01:01:01:500" :=
  ⟨by decide, by decide⟩

/-- C7: body spacing.  (1) Appending one more token to a block's body inserts
a single space exactly when the content accumulated so far is nonempty and
the token is not punctuation, and no space before a punctuation token.
(2) The tokens `hello` (word), `,` (punctuation), `world` (word) render as
the body `"hello, world"`. -/
theorem claim_C7_body_spacing :
    (∀ (items : List ItemSection) (t : ItemSection),
      renderContent (items ++ [t]) =
        renderContent items ++
          (if 0 < (renderContent items).length ∧ ¬(t.item_type = "punctuation")
           then " " else "") ++ t.content0) ∧
    renderContent
      [⟨some 0, some 1, ["hello"], "pronunciation"⟩,
       ⟨none, none, [","], "punctuation"⟩,
       ⟨some 1, some 2, ["world"], "pronunciation"⟩] = "hello, world" := by
  constructor
  · intro items t
    have hstep : renderContent (items ++ [t]) =
        (if 0 < (renderContent items).length ∧ ¬(t.item_type = "punctuation")
         then renderContent items ++ " " else renderContent items) ++ t.content0 := by
      unfold renderContent
      rw [List.foldl_append]
      rfl
    rw [hstep]
    by_cases h : 0 < (renderContent items).length ∧ ¬(t.item_type = "punctuation")
    · rw [if_pos h, if_pos h]
    · rw [if_neg h, if_neg h, String.append_empty]
  · decide

/-- C8: ordering-consistency error.  At any state of the merge loop where the
current token is not punctuation and is about to be consumed (its end time
is at most the current segment's end time), a start time before the current
segment's start time makes the merge stop with the ordering assertion:
nothing beyond the blocks already yielded is emitted, so the violating token
is appended to no block. -/
theorem claim_C8_ordering_error :
    ∀ (fuel : Nat) (off : ℚ) (s : SpeakerSection) (t : ItemSection)
      (segs : List SpeakerSection) (toks : List ItemSection)
      (cur : StitchedContent) (out : List StitchedContent) (te ts : ℚ),
    t.is_punctuation = false → t.end_time = some te → te ≤ s.end_time →
    t.start_time = some ts → ts < s.start_time →
    stitchLoop off (fuel + 1) s t segs toks cur out =
      (out.reverse, .error .orderingAssert) := by
  intro fuel off s t segs toks cur out te ts hp he hle hs hlt
  simp only [stitchLoop]
  rw [if_neg (by simp [hp]), he]
  simp only [if_pos hle, hs, if_pos hlt]

/-- Witness for C8 at a concrete state: word `x` (0-1) against segment (1-2)
stops the merge with the ordering assertion. -/
theorem claim_C8_witness :
    stitchLoop 0 1 ⟨1, 2, "spk_0", 1, "f"⟩ ⟨some 0, some 1, ["x"], "pronunciation"⟩
        [] [] ⟨⟨1, 2, "spk_0", 1, "f"⟩, [], 0⟩ [] = ([], .error .orderingAssert) :=
  claim_C8_ordering_error 0 0 ⟨1, 2, "spk_0", 1, "f"⟩
    ⟨some 0, some 1, ["x"], "pronunciation"⟩ [] [] ⟨⟨1, 2, "spk_0", 1, "f"⟩, [], 0⟩ []
    1 0 rfl rfl (by decide) rfl (by decide)

/-- C9 counterexample: a run that emits two blocks writes them separated by a
single newline, not a blank line: the output stream is the two renders each
followed by one `\n`, and no character of the stream is a newline immediately
followed by another newline (`noBlankLine`), so no empty line follows any
block. -/
theorem claim_C9_counterexample :
    (stitch [([⟨0, 1, "spk_0", 1, "f1"⟩, ⟨1, 2, "spk_1", 1, "f1"⟩],
        [⟨some 0, some 1, ["hello"], "pronunciation"⟩,
         ⟨some 1, some 2, ["bye"], "pronunciation"⟩])]).1.length = 2 ∧
    mainOutput [([⟨0, 1, "spk_0", 1, "f1"⟩, ⟨1, 2, "spk_1", 1, "f1"⟩],
        [⟨some 0, some 1, ["hello"], "pronunciation"⟩,
         ⟨some 1, some 2, ["bye"], "pronunciation"⟩])] =
      "[ speaker spk_0:f1 ] : ( 00:00:00:00 - 01:01:01:00 )\nhello\n[ speaker spk_1:f1 ] : ( 01:01:01:00 - 02:02:02:00 )\nbye\n" ∧
    noBlankLine (mainOutput [([⟨0, 1, "spk_0", 1, "f1"⟩, ⟨1, 2, "spk_1", 1, "f1"⟩],
        [⟨some 0, some 1, ["hello"], "pronunciation"⟩,
         ⟨some 1, some 2, ["bye"], "pronunciation"⟩])]).toList = true :=
  ⟨by decide, by decide, by decide⟩

/-- C9 amended: in the written output stream, consecutive rendered blocks are
separated by exactly one newline character — the stream is the blocks'
renders interleaved with single newlines, closed by one final newline when
any block was emitted. -/
theorem claim_C9_newline_separation :
    ∀ files : List FileData,
      mainOutput files =
        String.intercalate "\n" ((stitch files).1.map StitchedContent.render) ++
          (if ((stitch files).1.map StitchedContent.render).isEmpty then "" else "\n") := by
  intro files
  have hmap : (stitch files).1.map (fun b => b.render ++ "\n") =
      ((stitch files).1.map StitchedContent.render).map (· ++ "\n") := by
    rw [List.map_map]
    rfl
  unfold mainOutput
  rw [hmap, join_map_append_sep]

/-- C10: normal termination requires the token held at exhaustion to carry an
end time.  (1) If the held token's end time is absent, the stop handler
raises the type error from `max(number, None)` before any final-block yield.
(2) Consequently a file whose token stream ends in a token without an end
time — a punctuation token, the only kind the constructor admits without
timestamps — can never complete normally, at any offset. -/
theorem claim_C10_missing_end_time_fatal :
    (∀ (s : SpeakerSection) (t : ItemSection) (segs : List SpeakerSection)
       (toks : List ItemSection) (cur : StitchedContent) (out : List StitchedContent),
      t.end_time = none →
      handleStop s t segs toks cur out = (out.reverse, .error .typeErrorCompare)) ∧
    (∀ (segs : List SpeakerSection) (toks : List ItemSection) (off : ℚ)
       (lt : ItemSection), toks.getLast? = some lt → lt.end_time = none →
      ∀ q, (stitchFile segs toks off).2 ≠ .ok q) := by
  constructor
  · intro s t segs toks cur out he
    unfold handleStop
    rw [he]
  · intro segs toks off lt hlast hnone q hq
    obtain ⟨hs, ht, te, hte, -⟩ := stitchFile_ok_last segs toks off q hq
    rw [List.getLast?_eq_getLast toks ht] at hlast
    rw [(Option.some_inj.mp hlast).symm, hte] at hnone
    exact Option.noConfusion hnone

/-- Witness for C10: a file whose streams end with a bare `.` punctuation
token (no end time) hits the type error in the stop handler and cannot
complete normally. -/
theorem claim_C10_witness :
    handleStop ⟨0, 2, "spk_0", 2, "f"⟩ ⟨none, none, ["."], "punctuation"⟩ [] []
        ⟨⟨0, 2, "spk_0", 2, "f"⟩, [], 0⟩ [] = ([], .error .typeErrorCompare) ∧
    (stitchFile [⟨0, 2, "spk_0", 2, "f"⟩]
        [⟨some 0, some 1, ["a"], "pronunciation"⟩,
         ⟨none, none, ["."], "punctuation"⟩] 0).2 ≠ .ok 2 :=
  ⟨claim_C10_missing_end_time_fatal.1 _ _ _ _ _ _ rfl,
   claim_C10_missing_end_time_fatal.2 [⟨0, 2, "spk_0", 2, "f"⟩]
     [⟨some 0, some 1, ["a"], "pronunciation"⟩, ⟨none, none, ["."], "punctuation"⟩] 0
     ⟨none, none, ["."], "punctuation"⟩ rfl rfl 2⟩

end StitchTranscript
